import Mathlib

/-!
# Verification of the cliqerbot priority scoring engine

A shallow embedding of the priority scoring engine of `src/app.py`:
the six factor calculators (`calculate_urgency`, `calculate_strategic_value`,
`calculate_dependency_score`, `calculate_effort_impact`, `calculate_staleness`,
`calculate_activity_engagement`), the weighted aggregator
(`calculate_priority_score`) and the derived-view builders (`get_blockers`,
`get_quick_wins`, `get_stale_tasks`, `get_team_workload`).

Modelling conventions:
* Python text is modelled as `String`; every operation goes through
  `String.toList` so that concrete instances evaluate.  `str.lower()` is
  `List.map Char.toLower`, `a in b` (substring) is `listContainsSub`,
  slicing `title[:20]` is `List.take 20`.
* Timestamps are rationals counting hours; `datetime.fromisoformat`
  (composed with the `.replace('Z', '+00:00')` preprocessing) is an abstract
  parameter `parse : String → Option ℚ` — `none` models the exception path
  of the surrounding `try`/`except`.  "now" is a rational parameter.
  `(now - last_date).days` is `⌊(now - t) / 24⌋` (Python's `timedelta.days`
  floors).
* Python ints are `ℤ`/`ℕ`; the float arithmetic of the aggregator is modelled
  over `ℚ` with exact decimal weights; Python's `round(x, 1)` (banker's
  rounding) is `round1` built on `roundHalfEven`.
* A Python falsy check on an optional string (`if not deadline`) is a match
  on `Option String` together with an emptiness test.
-/

namespace App

/-- `listContainsSub pat s` : `pat` occurs as a contiguous run inside `s`.
This is Python's `pat in s` on strings, over exploded character lists. -/
def listContainsSub (pat : List Char) : List Char → Bool
  | [] => pat.isEmpty
  | c :: t => pat.isPrefixOf (c :: t) || listContainsSub pat t

/-- Python `s.lower()` followed by explosion into characters. -/
def lowerChars (s : String) : List Char := s.toList.map Char.toLower

/-- Python `[l.lower() for l in labels]`. -/
def lowerLabels (ls : List String) : List (List Char) := ls.map lowerChars

/-- `any(label in labels for label in keys)` over lowered labels. -/
def hasAnyLabel (labels : List (List Char)) (keys : List String) : Bool :=
  keys.any (fun k => labels.contains k.toList)

/-- `any(keyword in title or keyword in description for keyword in kws)`. -/
def hasAnyKw (title desc : List Char) (kws : List String) : Bool :=
  kws.any (fun k => listContainsSub k.toList title || listContainsSub k.toList desc)

/-- The normalized task record built by `normalize_tasks` (src/app.py:97-140),
restricted to the fields the scoring engine and views read. -/
structure Task where
  id : String
  title : String
  description : String
  status : String
  assignee : List String
  deadline : Option String
  labels : List String
  dateLastActivity : Option String
  total_checklist_items : ℕ
  comment_count : ℕ
  activity_count : ℕ
deriving Repr, DecidableEq

/-- `calculate_urgency` (src/app.py:146-186).  `parse` abstracts
`datetime.fromisoformat` (in hours); a `parse` failure is the `except`
branch returning 25.  A missing or empty deadline string is Python-falsy
and yields 15. -/
def calculate_urgency (parse : String → Option ℚ) (now : ℚ) (task : Task) : ℤ :=
  match task.deadline with
  | none => 15
  | some d =>
    if d == "" then 15
    else
      match parse d with
      | none => 25
      | some t =>
        let hoursUntil : ℚ := t - now
        let daysUntil : ℚ := hoursUntil / 24
        if hoursUntil < 0 then
          let daysOverdue : ℚ := |daysUntil|
          if 7 < daysOverdue then 100
          else if 3 < daysOverdue then 95
          else 90
        else if hoursUntil < 6 then 95
        else if hoursUntil < 24 then 85
        else if daysUntil ≤ 2 then 75
        else if daysUntil ≤ 4 then 60
        else if daysUntil ≤ 7 then 45
        else if daysUntil ≤ 14 then 30
        else 20

/-- `calculate_strategic_value` (src/app.py:188-222).  The rule order is the
source's: critical labels, high labels, bug keywords, business-impact
keywords, security keywords, low labels, default. -/
def calculate_strategic_value (task : Task) : ℤ :=
  let labels := lowerLabels task.labels
  let title := lowerChars task.title
  let description := lowerChars task.description
  if hasAnyLabel labels ["critical", "blocker", "emergency", "urgent"] then 95
  else if hasAnyLabel labels ["high", "important", "high priority"] then 80
  else if hasAnyKw title description ["bug", "error", "crash", "broken", "fix"] then 75
  else if hasAnyKw title description ["user-facing", "revenue", "customer", "production"] then 70
  else if hasAnyKw title description ["security", "vulnerability", "compliance", "audit"] then 85
  else if hasAnyLabel labels ["low", "nice to have", "enhancement", "future"] then 25
  else 50

/-- The self-referential blocker test of `calculate_dependency_score`
(src/app.py:236): `'blocker' in desc or 'blocking' in title or 'blocks' in
desc`, over lowered text. -/
def selfBlockerText (task : Task) : Bool :=
  listContainsSub "blocker".toList (lowerChars task.description)
  || listContainsSub "blocking".toList (lowerChars task.title)
  || listContainsSub "blocks".toList (lowerChars task.description)

/-- The blocked-by test of `calculate_dependency_score` (src/app.py:253). -/
def blockedByText (task : Task) : Bool :=
  listContainsSub "blocked by".toList (lowerChars task.description)
  || listContainsSub "waiting for".toList (lowerChars task.description)
  || listContainsSub "depends on".toList (lowerChars task.description)

/-- The `blocked_count` loop of `calculate_dependency_score`
(src/app.py:240-247): other tasks (different raw id) whose lowered
description contains this task's raw id, or whose lowered description or
title contains the first 20 characters of this task's lowered title. -/
def blockedCount (task : Task) (all_tasks : List Task) : ℕ :=
  List.countP (fun other =>
    other.id != task.id &&
    (listContainsSub task.id.toList (lowerChars other.description)
     || listContainsSub ((lowerChars task.title).take 20) (lowerChars other.description)
     || listContainsSub ((lowerChars task.title).take 20) (lowerChars other.title))) all_tasks

/-- `calculate_dependency_score` (src/app.py:224-256). -/
def calculate_dependency_score (task : Task) (all_tasks : List Task) : ℤ :=
  let score : ℤ := 20
  let score := if selfBlockerText task then score + 50 else score
  let score := score + min ((blockedCount task all_tasks : ℤ) * 20) 40
  let score := if blockedByText task then score - 30 else score
  min (max score 0) 100

/-- `calculate_effort_impact` (src/app.py:258-300). -/
def calculate_effort_impact (task : Task) : ℤ :=
  let title := lowerChars task.title
  let desc := lowerChars task.description
  let checklistItems := task.total_checklist_items
  if hasAnyKw title desc ["typo", "rename", "update text", "copy change", "wording",
      "small fix", "quick", "simple", "minor"] then 90
  else if hasAnyKw title desc ["refactor", "rebuild", "redesign", "architecture",
      "migration", "infrastructure", "integration"] then 35
  else if 10 < checklistItems then 30
  else if 5 < checklistItems then 45
  else if 0 < checklistItems then 65
  else
    let descLength := desc.length
    if 1000 < descLength then 40
    else if 500 < descLength then 55
    else if 100 < descLength then 70
    else if 0 < descLength then 75
    else 60

/-- The in-flight statuses of `calculate_staleness` (src/app.py:311). -/
def stalenessStatuses : List String := ["In Progress", "In Review", "Testing"]

/-- `calculate_staleness` (src/app.py:302-336).  `parse` abstracts
`datetime.fromisoformat`; `none` is the `except` branch returning 40.
A missing or empty `dateLastActivity` is Python-falsy and yields 50. -/
def calculate_staleness (parse : String → Option ℚ) (now : ℚ) (task : Task) : ℤ :=
  if !(stalenessStatuses.contains task.status) then 20
  else
    match task.dateLastActivity with
    | none => 50
    | some s =>
      if s == "" then 50
      else
        match parse s with
        | none => 40
        | some t =>
          let daysStale : ℤ := ⌊(now - t) / 24⌋
          if 14 < daysStale then 95
          else if 7 < daysStale then 85
          else if 4 < daysStale then 70
          else if 2 < daysStale then 50
          else 25

/-- `calculate_team_capacity` (src/app.py:338-355); retained for the
workload view, not part of the weighted formula. -/
def calculate_team_capacity (task : Task) : ℤ :=
  let numAssignees := task.assignee.length
  if numAssignees == 0 then 40
  else if numAssignees == 1 then 75
  else if numAssignees == 2 then 85
  else 70

/-- `calculate_activity_engagement` (src/app.py:357-374). -/
def calculate_activity_engagement (task : Task) : ℤ :=
  if 10 < task.comment_count ∨ 20 < task.activity_count then 80
  else if 5 < task.comment_count ∨ 10 < task.activity_count then 65
  else if 2 < task.comment_count ∨ 5 < task.activity_count then 50
  else if 0 < task.comment_count ∨ 0 < task.activity_count then 40
  else 30

/-- Python's round-half-to-even on a rational, to the nearest integer. -/
def roundHalfEven (q : ℚ) : ℤ :=
  let f := ⌊q⌋
  let r := q - f
  if r < 1/2 then f
  else if 1/2 < r then f + 1
  else if f % 2 = 0 then f else f + 1

/-- Python `round(q, 1)`: banker's rounding to one decimal place. -/
def round1 (q : ℚ) : ℚ := (roundHalfEven (q * 10) : ℚ) / 10

/-- The `priority_breakdown` mapping stored on each task by
`calculate_priority_score` (src/app.py:395-402). -/
structure Breakdown where
  urgency : ℚ
  strategic_value : ℚ
  dependency_impact : ℚ
  effort_vs_impact : ℚ
  staleness : ℚ
  engagement : ℚ
deriving Repr, DecidableEq

/-- `calculate_priority_score` (src/app.py:376-414): the six factors, the
stored breakdown (each factor through `round(·, 1)`), and the clamped,
rounded weighted score.  The Python float weights `0.30`, `0.25`, `0.20`,
`0.10`, `0.10`, `0.05` are modelled as exact rationals. -/
def calculate_priority_score (parse : String → Option ℚ) (now : ℚ)
    (task : Task) (all_tasks : List Task) : ℚ × Breakdown :=
  let urgency := calculate_urgency parse now task
  let strategic := calculate_strategic_value task
  let dependency := calculate_dependency_score task all_tasks
  let effortImpact := calculate_effort_impact task
  let staleness := calculate_staleness parse now task
  let engagement := calculate_activity_engagement task
  let breakdown : Breakdown :=
    { urgency := round1 urgency
      strategic_value := round1 strategic
      dependency_impact := round1 dependency
      effort_vs_impact := round1 effortImpact
      staleness := round1 staleness
      engagement := round1 engagement }
  let priorityScore : ℚ :=
    (urgency * (30/100)) + (strategic * (25/100)) + (dependency * (20/100)) +
      (effortImpact * (10/100)) + (staleness * (10/100)) + (engagement * (5/100))
  (round1 (min 100 (max 0 priorityScore)), breakdown)

/-- A task after the per-request scoring pass
(`task['priority_score'] = calculate_priority_score(task, tasks)`,
with the breakdown the same call stored on the task). -/
structure ScoredTask where
  task : Task
  priority_score : ℚ
  priority_breakdown : Breakdown
deriving Repr, DecidableEq

/-- Score one task against the whole collection. -/
def scoreTask (parse : String → Option ℚ) (now : ℚ) (all_tasks : List Task)
    (task : Task) : ScoredTask :=
  let r := calculate_priority_score parse now task all_tasks
  ⟨task, r.1, r.2⟩

/-- The scoring loop every endpoint runs before building a view. -/
def scoreTasks (parse : String → Option ℚ) (now : ℚ) (tasks : List Task) :
    List ScoredTask :=
  tasks.map (scoreTask parse now tasks)

/-- Python's `list.sort(key=key, reverse=True)`: a stable descending sort
by a rational key. -/
def sortDescBy {α : Type} (key : α → ℚ) (l : List α) : List α :=
  l.mergeSort (fun a b => decide (key b ≤ key a))

/-- The statuses every view treats as terminal (`['Done', 'Completed']`). -/
def doneStatuses : List String := ["Done", "Completed"]

/-- The selection test of `get_blockers` (src/app.py:629-630):
`'blocker' in labels or 'blocker' in desc or 'blocking' in title or
'blocks' in desc`, over lowered labels and text.  The text part is
exactly `selfBlockerText`, the dependency calculator's self-blocker
detector. -/
def blockersCond (t : Task) : Bool :=
  (lowerLabels t.labels).contains "blocker".toList || selfBlockerText t

/-- The `/api/blockers` view body (src/app.py:610-633): filter by
`blockersCond`, then sort descending by priority score. -/
def get_blockers (sts : List ScoredTask) : List ScoredTask :=
  sortDescBy (fun st => st.priority_score) (sts.filter (fun st => blockersCond st.task))

/-- The `/api/quick-wins` view body (src/app.py:647-668): keep tasks with
breakdown effort over 75 and a non-terminal status, then sort descending
by the effort breakdown value. -/
def get_quick_wins (sts : List ScoredTask) : List ScoredTask :=
  sortDescBy (fun st => st.priority_breakdown.effort_vs_impact)
    (sts.filter (fun st =>
      decide (75 < st.priority_breakdown.effort_vs_impact)
        && !(doneStatuses.contains st.task.status)))

/-- The `days_stale` annotation of `get_stale_tasks` (src/app.py:701-707):
re-parse `dateLastActivity` and take whole days since; `none` models the
`except` branch that stores the string `'Unknown'`. -/
def staleDaysAnnotation (parse : String → Option ℚ) (now : ℚ) (task : Task) :
    Option ℤ :=
  match task.dateLastActivity with
  | none => none
  | some s =>
    if s == "" then none
    else
      match parse s with
      | none => none
      | some t => some ⌊(now - t) / 24⌋

/-- The `/api/stale-tasks` view body (src/app.py:682-711): keep tasks with
breakdown staleness over 70 and an in-flight status, annotate each with
`days_stale`, sort descending by the staleness breakdown value. -/
def get_stale_tasks (parse : String → Option ℚ) (now : ℚ)
    (sts : List ScoredTask) : List (ScoredTask × Option ℤ) :=
  sortDescBy (fun p => p.1.priority_breakdown.staleness)
    ((sts.filter (fun st =>
        decide (70 < st.priority_breakdown.staleness)
          && stalenessStatuses.contains st.task.status)).map
      (fun st => (st, staleDaysAnnotation parse now st.task)))

/-- One value of the `workload` dict of `get_team_workload`
(src/app.py:956-973).  The derived `avg_priority` added in the final pass
is a pure function of `total_priority_score` and `task_count` and is not
modelled separately. -/
structure WorkloadEntry where
  task_count : ℕ
  high_priority_count : ℕ
  total_priority_score : ℚ
  tasks : List String
deriving Repr, DecidableEq

/-- The per-assignee update block of `get_team_workload`
(src/app.py:964-973). -/
def addTaskToEntry (st : ScoredTask) (e : WorkloadEntry) : WorkloadEntry :=
  { task_count := e.task_count + 1
    high_priority_count :=
      if 75 < st.priority_score then e.high_priority_count + 1 else e.high_priority_count
    total_priority_score := e.total_priority_score + st.priority_score
    tasks := e.tasks ++ [st.task.id] }

/-- `workload[assignee_id]` insert-or-update on the dict, modelled as an
insertion-ordered association list (Python dicts preserve insertion order). -/
def addAssignee : List (String × WorkloadEntry) → String → ScoredTask →
    List (String × WorkloadEntry)
  | [], a, st => [(a, addTaskToEntry st ⟨0, 0, 0, []⟩)]
  | (k, e) :: rest, a, st =>
    if k == a then (k, addTaskToEntry st e) :: rest
    else (k, e) :: addAssignee rest a st

/-- The per-task body of the `get_team_workload` loop (src/app.py:947-973):
skip terminal statuses, collect zero-assignee tasks separately, otherwise
update the entry of every assignee. -/
def processWorkloadTask (acc : List (String × WorkloadEntry) × List ScoredTask)
    (st : ScoredTask) : List (String × WorkloadEntry) × List ScoredTask :=
  if doneStatuses.contains st.task.status then acc
  else if st.task.assignee.isEmpty then (acc.1, acc.2 ++ [st])
  else (st.task.assignee.foldl (fun w a => addAssignee w a st) acc.1, acc.2)

/-- The `/api/team-workload` view body (src/app.py:931-988): the
per-assignee map and the unassigned task list. -/
def get_team_workload (sts : List ScoredTask) :
    List (String × WorkloadEntry) × List ScoredTask :=
  sts.foldl processWorkloadTask ([], [])

/-- Modelled from the spec (§4.8 Blockers): "tasks whose label set contains
'blocker', or whose description/title contains blocker language" — the
field-symmetric reading, each of the three words checked against both the
description and the title.  Stated only to compare against the source's
`blockersCond`. -/
def specBlockersCond (t : Task) : Bool :=
  (lowerLabels t.labels).contains "blocker".toList
    || (["blocker", "blocking", "blocks"] : List String).any (fun k =>
        listContainsSub k.toList (lowerChars t.description)
          || listContainsSub k.toList (lowerChars t.title))

/-! ## Named decompositions of the reference counter

`blockedCount`'s test is a disjunction; the two counters below name its
description part and its title part so that "referenced in exactly 2 other
tasks' descriptions and in no other task's title" can be stated. -/

/-- Other tasks whose lowered description mentions this task (by raw id or
by the first 20 characters of its lowered title). -/
def descRefCount (task : Task) (all_tasks : List Task) : ℕ :=
  List.countP (fun other =>
    other.id != task.id &&
    (listContainsSub task.id.toList (lowerChars other.description)
     || listContainsSub ((lowerChars task.title).take 20) (lowerChars other.description))) all_tasks

/-- Other tasks whose lowered title contains the first 20 characters of
this task's lowered title. -/
def titleRefCount (task : Task) (all_tasks : List Task) : ℕ :=
  List.countP (fun other =>
    other.id != task.id &&
    listContainsSub ((lowerChars task.title).take 20) (lowerChars other.title)) all_tasks

/-- Total of the `task_count` fields over the per-assignee map. -/
def sumTaskCounts (w : List (String × WorkloadEntry)) : ℕ :=
  (w.map (fun e => e.2.task_count)).sum

/-! ## Concrete fixtures used by witnesses and counterexamples -/

/-- A parse function that always fails: every timestamp string is
unparseable. -/
def parseNone : String → Option ℚ := fun _ => none

/-- A parse function mapping three deadline strings to three concrete
timestamps (in hours): 10 days ahead, 3 hours ahead, 10 days ago. -/
def parseAt : String → Option ℚ := fun s =>
  if s == "a" then some 240 else if s == "b" then some 3 else some (-240)

/-- A parse function placing every timestamp 10 days in the past. -/
def parseOld : String → Option ℚ := fun _ => some (-240)

/-- A task with nothing set. -/
def blankTask : Task :=
  { id := "t0", title := "", description := "", status := "To Do",
    assignee := [], deadline := none, labels := [],
    dateLastActivity := none, total_checklist_items := 0,
    comment_count := 0, activity_count := 0 }

/-- A label-free task whose title holds both a security keyword and a bug
keyword. -/
def taskC1 : Task := { blankTask with id := "c1", title := "security bug" }

/-- Tasks whose deadline strings `parseAt` maps to 10 days ahead, 3 hours
ahead and 10 days ago. -/
def taskC2a : Task := { blankTask with id := "c2a", deadline := some "a" }

def taskC2b : Task := { blankTask with id := "c2b", deadline := some "b" }

def taskC2c : Task := { blankTask with id := "c2c", deadline := some "c" }

/-- A task referenced, by id, in exactly two other tasks' descriptions. -/
def taskC4 : Task := { blankTask with id := "t1", title := "Ship alpha rocket" }

def taskC4other1 : Task :=
  { blankTask with id := "o1", title := "Other one", description := "see t1" }

def taskC4other2 : Task :=
  { blankTask with id := "o2", title := "Other two", description := "after t1 lands" }

def tasksC4 : List Task := [taskC4, taskC4other1, taskC4other2]

/-- A task whose description (not title) holds the word "blocking" and
whose label set is empty:  blocker language under the spec's field-symmetric
reading, but invisible to the source's field-specific test. -/
def taskC5 : Task := { blankTask with id := "c5", description := "blocking" }

/-- A task with an unparseable deadline string. -/
def taskC6a : Task := { blankTask with id := "c6a", deadline := some "bad" }

/-- An in-flight task with an unparseable last-activity string. -/
def taskC6b : Task :=
  { blankTask with id := "c6b", status := "In Progress", dateLastActivity := some "bad" }

/-- An in-flight task whose last activity `parseOld` places 10 days ago. -/
def taskC9 : Task :=
  { blankTask with id := "c9", status := "In Progress", dateLastActivity := some "old" }

/-- An empty-titled task in a three-task collection with distinct ids. -/
def taskC10 : Task := { blankTask with id := "t10" }

def tasksC10 : List Task :=
  [taskC10, { blankTask with id := "t11", title := "Some work" },
    { blankTask with id := "t12", title := "More work" }]

/-! ## Rounding lemmas -/

theorem roundHalfEven_eq_floor_or_succ (q : ℚ) :
    roundHalfEven q = ⌊q⌋ ∨ (roundHalfEven q = ⌊q⌋ + 1 ∧ (1:ℚ)/2 ≤ q - ⌊q⌋) := by
  unfold roundHalfEven
  dsimp only
  split_ifs with h1 h2 h3
  · exact Or.inl rfl
  · exact Or.inr ⟨rfl, le_of_not_lt h1⟩
  · exact Or.inl rfl
  · exact Or.inr ⟨rfl, le_of_not_lt h1⟩

theorem roundHalfEven_mem {q : ℚ} {n : ℤ} (h0 : 0 ≤ q) (h1 : q ≤ (n : ℚ)) :
    0 ≤ roundHalfEven q ∧ roundHalfEven q ≤ n := by
  have hf0 : 0 ≤ ⌊q⌋ := Int.floor_nonneg.mpr h0
  have hfn : ⌊q⌋ ≤ n := by
    have := Int.floor_le_floor h1
    simpa using this
  rcases roundHalfEven_eq_floor_or_succ q with h | ⟨h, hr⟩
  · exact ⟨h ▸ hf0, h ▸ hfn⟩
  · refine ⟨h ▸ by omega, h ▸ ?_⟩
    have hq : (⌊q⌋ : ℚ) + 1/2 ≤ (n : ℚ) := by
      have := Int.floor_le q
      linarith
    have : (⌊q⌋ : ℚ) < (n : ℚ) := by linarith
    have : ⌊q⌋ < n := by exact_mod_cast this
    omega

theorem round1_mem {x : ℚ} (h0 : 0 ≤ x) (h1 : x ≤ 100) :
    0 ≤ round1 x ∧ round1 x ≤ 100 := by
  have h10 : 0 ≤ x * 10 := by linarith
  have h1000 : x * 10 ≤ ((1000 : ℤ) : ℚ) := by push_cast; linarith
  obtain ⟨hl, hu⟩ := roundHalfEven_mem h10 h1000
  have hlq : (0:ℚ) ≤ (roundHalfEven (x * 10) : ℚ) := by exact_mod_cast hl
  have huq : (roundHalfEven (x * 10) : ℚ) ≤ 1000 := by exact_mod_cast hu
  unfold round1
  constructor
  · positivity
  · rw [div_le_iff₀ (by norm_num : (0:ℚ) < 10)]
    linarith

theorem round1_intCast (n : ℤ) : round1 ((n : ℤ) : ℚ) = (n : ℚ) := by
  unfold round1 roundHalfEven
  have h : ((n : ℚ) * 10) = ((n * 10 : ℤ) : ℚ) := by push_cast; ring
  rw [h, Int.floor_intCast]
  rw [if_pos (by rw [sub_self]; norm_num)]
  push_cast
  ring

/-! ## Range of each factor calculator -/

theorem calculate_urgency_mem (parse : String → Option ℚ) (now : ℚ) (task : Task) :
    0 ≤ calculate_urgency parse now task ∧ calculate_urgency parse now task ≤ 100 := by
  unfold calculate_urgency
  repeat' split
  all_goals try norm_num
  all_goals split_ifs <;> norm_num

theorem calculate_strategic_value_mem (task : Task) :
    0 ≤ calculate_strategic_value task ∧ calculate_strategic_value task ≤ 100 := by
  unfold calculate_strategic_value
  dsimp only
  split_ifs <;> norm_num

theorem calculate_dependency_score_mem (task : Task) (all_tasks : List Task) :
    0 ≤ calculate_dependency_score task all_tasks ∧
      calculate_dependency_score task all_tasks ≤ 100 := by
  unfold calculate_dependency_score
  exact ⟨le_min (le_max_right _ _) (by norm_num), min_le_right _ _⟩

theorem calculate_effort_impact_mem (task : Task) :
    0 ≤ calculate_effort_impact task ∧ calculate_effort_impact task ≤ 100 := by
  unfold calculate_effort_impact
  dsimp only
  split_ifs <;> norm_num

theorem calculate_staleness_mem (parse : String → Option ℚ) (now : ℚ) (task : Task) :
    0 ≤ calculate_staleness parse now task ∧ calculate_staleness parse now task ≤ 100 := by
  unfold calculate_staleness
  repeat' split
  all_goals try norm_num
  all_goals split_ifs <;> norm_num

theorem calculate_activity_engagement_mem (task : Task) :
    0 ≤ calculate_activity_engagement task ∧ calculate_activity_engagement task ≤ 100 := by
  unfold calculate_activity_engagement
  split_ifs <;> norm_num

/-! ## Sorting and substring lemmas -/

theorem sortDescBy_mem {α : Type} (key : α → ℚ) (l : List α) (a : α) :
    a ∈ sortDescBy key l ↔ a ∈ l := List.mem_mergeSort

theorem sortDescBy_pairwise {α : Type} (key : α → ℚ) (l : List α) :
    (sortDescBy key l).Pairwise (fun a b => key b ≤ key a) := by
  have htrans : ∀ a b c : α, (fun a b => decide (key b ≤ key a)) a b = true →
      (fun a b => decide (key b ≤ key a)) b c = true →
      (fun a b => decide (key b ≤ key a)) a c = true := by
    intro a b c hab hbc
    simp only [decide_eq_true_eq] at *
    exact le_trans hbc hab
  have htotal : ∀ a b : α,
      ((fun a b => decide (key b ≤ key a)) a b || (fun a b => decide (key b ≤ key a)) b a) = true := by
    intro a b
    simpa using le_total (key b) (key a)
  have h := List.sorted_mergeSort htrans htotal l
  exact h.imp (fun hab => by simpa using hab)

theorem listContainsSub_nil (s : List Char) : listContainsSub [] s = true := by
  cases s <;> rfl

/-! ## Claim C1 -/

/-- Claim C1, corrected.  The source checks the bug/defect keyword rule
before the security/compliance keyword rule (src/app.py:206 before 214), so
a task with no critical and no high label whose lowered title or
description holds both a security keyword and a bug keyword scores 75, not
the 85 the claim states. -/
theorem claim_C1 (task : Task)
    (hcrit : hasAnyLabel (lowerLabels task.labels)
      ["critical", "blocker", "emergency", "urgent"] = false)
    (hhigh : hasAnyLabel (lowerLabels task.labels)
      ["high", "important", "high priority"] = false)
    (hsec : hasAnyKw (lowerChars task.title) (lowerChars task.description)
      ["security", "vulnerability", "compliance", "audit"] = true)
    (hbug : hasAnyKw (lowerChars task.title) (lowerChars task.description)
      ["bug", "error", "crash", "broken", "fix"] = true) :
    calculate_strategic_value task = 75 := by
  unfold calculate_strategic_value
  dsimp only
  simp [hcrit, hhigh, hbug]

/-- Claim C1's counterexample: the unlabeled task titled "security bug"
holds a security keyword and a bug keyword, yet scores 75, not 85. -/
theorem claim_C1_counterexample :
    calculate_strategic_value taskC1 = 75 ∧ calculate_strategic_value taskC1 ≠ 85 := by
  constructor <;> decide

/-- Claim C1's theorem applied to the task titled "security bug". -/
theorem claim_C1_witness :
    hasAnyLabel (lowerLabels taskC1.labels)
      ["critical", "blocker", "emergency", "urgent"] = false ∧
    hasAnyLabel (lowerLabels taskC1.labels)
      ["high", "important", "high priority"] = false ∧
    hasAnyKw (lowerChars taskC1.title) (lowerChars taskC1.description)
      ["security", "vulnerability", "compliance", "audit"] = true ∧
    hasAnyKw (lowerChars taskC1.title) (lowerChars taskC1.description)
      ["bug", "error", "crash", "broken", "fix"] = true ∧
    calculate_strategic_value taskC1 = 75 :=
  ⟨by decide, by decide, by decide, by decide,
    claim_C1 taskC1 (by decide) (by decide) (by decide) (by decide)⟩

/-! ## Claim C3 -/

/-- Claim C3, confirmed.  For every task in every collection the aggregate
priority score and all six breakdown values lie in [0, 100]. -/
theorem claim_C3 (parse : String → Option ℚ) (now : ℚ) (task : Task)
    (all_tasks : List Task) :
    (0 ≤ (calculate_priority_score parse now task all_tasks).1 ∧
      (calculate_priority_score parse now task all_tasks).1 ≤ 100) ∧
    (0 ≤ (calculate_priority_score parse now task all_tasks).2.urgency ∧
      (calculate_priority_score parse now task all_tasks).2.urgency ≤ 100) ∧
    (0 ≤ (calculate_priority_score parse now task all_tasks).2.strategic_value ∧
      (calculate_priority_score parse now task all_tasks).2.strategic_value ≤ 100) ∧
    (0 ≤ (calculate_priority_score parse now task all_tasks).2.dependency_impact ∧
      (calculate_priority_score parse now task all_tasks).2.dependency_impact ≤ 100) ∧
    (0 ≤ (calculate_priority_score parse now task all_tasks).2.effort_vs_impact ∧
      (calculate_priority_score parse now task all_tasks).2.effort_vs_impact ≤ 100) ∧
    (0 ≤ (calculate_priority_score parse now task all_tasks).2.staleness ∧
      (calculate_priority_score parse now task all_tasks).2.staleness ≤ 100) ∧
    (0 ≤ (calculate_priority_score parse now task all_tasks).2.engagement ∧
      (calculate_priority_score parse now task all_tasks).2.engagement ≤ 100) := by
  have key : ∀ n : ℤ, 0 ≤ n ∧ n ≤ 100 → 0 ≤ round1 (n : ℚ) ∧ round1 (n : ℚ) ≤ 100 := by
    intro n hn
    exact round1_mem (by exact_mod_cast hn.1) (by exact_mod_cast hn.2)
  unfold calculate_priority_score
  dsimp only
  refine ⟨?_, ?_, ?_, ?_, ?_, ?_, ?_⟩
  · exact round1_mem (le_min (by norm_num) (le_max_left 0 _)) (min_le_left _ _)
  · exact key _ (calculate_urgency_mem parse now task)
  · exact key _ (calculate_strategic_value_mem task)
  · exact key _ (calculate_dependency_score_mem task all_tasks)
  · exact key _ (calculate_effort_impact_mem task)
  · exact key _ (calculate_staleness_mem parse now task)
  · exact key _ (calculate_activity_engagement_mem task)

/-! ## Claim C4 -/

theorem blockedCount_eq_descRefCount (task : Task) (all_tasks : List Task)
    (h : titleRefCount task all_tasks = 0) :
    blockedCount task all_tasks = descRefCount task all_tasks := by
  unfold titleRefCount at h
  have h0 := List.countP_eq_zero.mp h
  unfold blockedCount descRefCount
  apply List.countP_congr
  intro o ho
  have ht := h0 o ho
  simp only [Bool.and_eq_true, Bool.or_eq_true] at ht ⊢
  tauto

/-- Claim C4, confirmed.  A task with no self-blocker language and no
blocked-by language, mentioned in exactly 2 other tasks' descriptions and
in no other task's title, scores 20 + 0 + min(2 × 20, 40) = 60. -/
theorem claim_C4 (task : Task) (all_tasks : List Task)
    (hself : selfBlockerText task = false)
    (hblocked : blockedByText task = false)
    (hdesc : descRefCount task all_tasks = 2)
    (htitle : titleRefCount task all_tasks = 0) :
    calculate_dependency_score task all_tasks = 60 := by
  have hbc : blockedCount task all_tasks = 2 :=
    (blockedCount_eq_descRefCount task all_tasks htitle).trans hdesc
  unfold calculate_dependency_score
  rw [hbc]
  simp [hself, hblocked]

/-- Claim C4's theorem applied to a three-task fixture where two other
tasks mention the focal task's id in their descriptions. -/
theorem claim_C4_witness :
    selfBlockerText taskC4 = false ∧ blockedByText taskC4 = false ∧
    descRefCount taskC4 tasksC4 = 2 ∧ titleRefCount taskC4 tasksC4 = 0 ∧
    calculate_dependency_score taskC4 tasksC4 = 60 :=
  ⟨by decide, by decide, by decide, by decide,
    claim_C4 taskC4 tasksC4 (by decide) (by decide) (by decide) (by decide)⟩

/-! ## Claim C10 -/

/-- Claim C10, confirmed.  An empty title has an empty 20-character prefix,
which occurs in every string, so the reference counter counts every other
task (with a different id); with at least 3 tasks and pairwise-distinct
ids the capped reference bonus min(20 × count, 40) is the full 40. -/
theorem claim_C10 (task : Task) (all_tasks : List Task)
    (htitle : task.title = "")
    (hmem : task ∈ all_tasks)
    (hlen : 3 ≤ all_tasks.length)
    (hids : (all_tasks.map Task.id).Nodup) :
    blockedCount task all_tasks =
      List.countP (fun other => other.id != task.id) all_tasks ∧
    min ((blockedCount task all_tasks : ℤ) * 20) 40 = 40 := by
  have hnil : (lowerChars task.title).take 20 = ([] : List Char) := by
    rw [htitle]; rfl
  have hcount : blockedCount task all_tasks =
      List.countP (fun other => other.id != task.id) all_tasks := by
    unfold blockedCount
    apply List.countP_congr
    intro o ho
    simp [hnil, listContainsSub_nil]
  refine ⟨hcount, ?_⟩
  have h1 : List.countP (fun other => other.id == task.id) all_tasks = 1 := by
    have hidmem : task.id ∈ all_tasks.map Task.id := List.mem_map_of_mem Task.id hmem
    have hone := List.count_eq_one_of_mem hids hidmem
    rwa [List.count, List.countP_map] at hone
  have h2 := List.length_eq_countP_add_countP
    (fun other => other.id != task.id) all_tasks
  have h3 : List.countP
      (fun a => decide ¬((fun other => other.id != task.id) a = true)) all_tasks =
      List.countP (fun other => other.id == task.id) all_tasks := by
    apply List.countP_congr
    intro o ho
    simp [bne]
  rw [h3] at h2
  have hge : 2 ≤ List.countP (fun other => other.id != task.id) all_tasks := by
    omega
  rw [hcount]
  have hgez : (2 : ℤ) ≤ (List.countP (fun other => other.id != task.id) all_tasks : ℤ) := by
    exact_mod_cast hge
  omega

/-- Claim C10's theorem applied to a three-task fixture whose focal task
has the empty title. -/
theorem claim_C10_witness :
    taskC10.title = "" ∧ taskC10 ∈ tasksC10 ∧ 3 ≤ tasksC10.length ∧
    (tasksC10.map Task.id).Nodup ∧
    (blockedCount taskC10 tasksC10 =
      List.countP (fun other => other.id != taskC10.id) tasksC10 ∧
     min ((blockedCount taskC10 tasksC10 : ℤ) * 20) 40 = 40) :=
  ⟨rfl, by decide, by decide, by decide,
    claim_C10 taskC10 tasksC10 rfl (by decide) (by decide) (by decide)⟩

/-! ## Claim C5 -/

/-- Claim C5, corrected.  Membership in the blockers view is equivalent to
the source's test: label set contains "blocker", or the field-specific
text test of the dependency calculator ("blocker" in the description,
"blocking" in the title, "blocks" in the description).  The claim's
field-symmetric reading is refuted by `claim_C5_counterexample`. -/
theorem claim_C5 (sts : List ScoredTask) (st : ScoredTask) :
    st ∈ get_blockers sts ↔ st ∈ sts ∧ blockersCond st.task = true := by
  unfold get_blockers
  rw [sortDescBy_mem]
  simp [List.mem_filter]

/-- Claim C5's counterexample: a task whose description alone holds the
word "blocking" satisfies the spec's field-symmetric condition, yet the
blockers view built over the one-task collection is empty. -/
theorem claim_C5_counterexample :
    specBlockersCond taskC5 = true ∧ blockersCond taskC5 = false ∧
    get_blockers (scoreTasks parseNone 0 [taskC5]) = [] := by
  refine ⟨by decide, by decide, ?_⟩
  have hfilter : (scoreTasks parseNone 0 [taskC5]).filter
      (fun st => blockersCond st.task) = [] := by decide
  unfold get_blockers sortDescBy
  rw [hfilter]
  exact List.mergeSort_nil

/-! ## Claim C6 -/

/-- Claim C6, confirmed.  Timestamp parse failures fail soft: an
unparseable non-empty deadline makes the urgency calculator return 25, and
an unparseable non-empty last-activity stamp on an in-flight task makes
the staleness calculator return 40; both are total functions here, so both
return rather than raise. -/
theorem claim_C6 (parse : String → Option ℚ) (now : ℚ) (task : Task) :
    (∀ s : String, task.deadline = some s → s ≠ "" → parse s = none →
      calculate_urgency parse now task = 25) ∧
    (∀ s : String, task.status ∈ stalenessStatuses →
      task.dateLastActivity = some s → s ≠ "" → parse s = none →
      calculate_staleness parse now task = 40) := by
  constructor
  · intro s hd hs hp
    unfold calculate_urgency
    simp [hd, hs, hp]
  · intro s hstatus hd hs hp
    have hc : stalenessStatuses.contains task.status = true := by
      simpa using hstatus
    unfold calculate_staleness
    simp [hc, hd, hs, hp, hstatus]

/-- Claim C6's theorem applied to two concrete tasks under the
always-failing parse function. -/
theorem claim_C6_witness :
    calculate_urgency parseNone 0 taskC6a = 25 ∧
    calculate_staleness parseNone 0 taskC6b = 40 :=
  ⟨(claim_C6 parseNone 0 taskC6a).1 "bad" rfl (by decide) rfl,
   (claim_C6 parseNone 0 taskC6b).2 "bad" (by decide) rfl (by decide) rfl⟩

/-! ## Claim C2 -/

/-- Claim C2, corrected.  For a parsed deadline: exactly 10 days ahead
(240 hours) falls in the "within 14 days" band and yields 30 — not the 20
the claim states; exactly 3 hours ahead yields 95; exactly 10 days past
yields 100. -/
theorem claim_C2 (parse : String → Option ℚ) (now : ℚ) (task : Task)
    (s : String) (t : ℚ)
    (hd : task.deadline = some s) (hs : s ≠ "") (hp : parse s = some t) :
    (t - now = 240 → calculate_urgency parse now task = 30) ∧
    (t - now = 3 → calculate_urgency parse now task = 95) ∧
    (t - now = -240 → calculate_urgency parse now task = 100) := by
  refine ⟨fun h => ?_, fun h => ?_, fun h => ?_⟩ <;>
  · unfold calculate_urgency
    simp only [hd, hp]
    rw [if_neg (by simp [hs])]
    rw [h]
    norm_num

/-- Claim C2's counterexample: under a parse that places the deadline
exactly 240 hours ahead of "now", the urgency is 30, not the claimed 20. -/
theorem claim_C2_counterexample :
    calculate_urgency parseAt 0 taskC2a = 30 ∧
    calculate_urgency parseAt 0 taskC2a ≠ 20 := by
  have h : calculate_urgency parseAt 0 taskC2a = 30 := by
    unfold calculate_urgency
    have hd : taskC2a.deadline = some "a" := rfl
    have hp : parseAt "a" = some 240 := rfl
    simp only [hd, hp]
    rw [if_neg (by simp)]
    norm_num
  exact ⟨h, by rw [h]; decide⟩

/-- Claim C2's theorem applied at deadlines 240 hours ahead, 3 hours ahead
and 240 hours past, all with "now" at 0. -/
theorem claim_C2_witness :
    taskC2a.deadline = some "a" ∧ parseAt "a" = some 240 ∧
    calculate_urgency parseAt 0 taskC2a = 30 ∧
    calculate_urgency parseAt 0 taskC2b = 95 ∧
    calculate_urgency parseAt 0 taskC2c = 100 :=
  ⟨rfl, rfl,
    (claim_C2 parseAt 0 taskC2a "a" 240 rfl (by decide) rfl).1 (by norm_num),
    (claim_C2 parseAt 0 taskC2b "b" 3 rfl (by decide) rfl).2.1 (by norm_num),
    (claim_C2 parseAt 0 taskC2c "c" (-240) rfl (by decide) rfl).2.2 (by norm_num)⟩

/-! ## Claim C7 -/

/-- Claim C7, confirmed.  The quick-wins view holds exactly the tasks with
breakdown effort over 75 and a status outside Done/Completed (so never a
"Done" task), and it is ordered descending by the effort breakdown value,
not by the overall priority score. -/
theorem claim_C7 (sts : List ScoredTask) :
    (∀ st : ScoredTask, st ∈ get_quick_wins sts ↔
      st ∈ sts ∧ 75 < st.priority_breakdown.effort_vs_impact ∧
        st.task.status ∉ doneStatuses) ∧
    (get_quick_wins sts).Perm (sts.filter (fun st =>
      decide (75 < st.priority_breakdown.effort_vs_impact)
        && !(doneStatuses.contains st.task.status))) ∧
    (get_quick_wins sts).Pairwise (fun a b =>
      b.priority_breakdown.effort_vs_impact ≤ a.priority_breakdown.effort_vs_impact) := by
  refine ⟨?_, List.mergeSort_perm _ _, sortDescBy_pairwise _ _⟩
  intro st
  unfold get_quick_wins
  rw [sortDescBy_mem]
  simp [List.mem_filter, and_assoc]

/-! ## Claim C9 -/

/-- A staleness value above 70 forces the 85 or 95 branch: the status was
in-flight, the last-activity stamp was present, non-empty and parseable,
and the whole-day difference exceeds 7. -/
theorem calculate_staleness_gt_70 (parse : String → Option ℚ) (now : ℚ) (task : Task)
    (h : 70 < calculate_staleness parse now task) :
    ∃ s ts, task.dateLastActivity = some s ∧ (s == "") = false ∧ parse s = some ts ∧
      7 < ⌊(now - ts) / 24⌋ := by
  unfold calculate_staleness at h
  split at h
  · norm_num at h
  · split at h
    · norm_num at h
    · next s heq =>
      split at h
      · norm_num at h
      · next hne =>
        split at h
        · norm_num at h
        · next ts hts =>
          refine ⟨s, ts, heq, by simpa using hne, hts, ?_⟩
          dsimp only at h
          split_ifs at h <;> omega

/-- Claim C9, confirmed.  Every task admitted to the stale view out of a
scored collection carries an integer days_stale annotation greater than 7;
the 'Unknown' fallback is unreachable there. -/
theorem claim_C9 (parse : String → Option ℚ) (now : ℚ) (tasks : List Task) :
    ∀ p ∈ get_stale_tasks parse now (scoreTasks parse now tasks),
      ∃ d : ℤ, p.2 = some d ∧ 7 < d := by
  intro p hp
  unfold get_stale_tasks at hp
  rw [sortDescBy_mem] at hp
  obtain ⟨st, hst, rfl⟩ := List.mem_map.mp hp
  obtain ⟨hmem, hcond⟩ := List.mem_filter.mp hst
  simp only [Bool.and_eq_true, decide_eq_true_eq] at hcond
  obtain ⟨h70, hstatus⟩ := hcond
  unfold scoreTasks at hmem
  obtain ⟨t, htmem, rfl⟩ := List.mem_map.mp hmem
  have hb : (scoreTask parse now tasks t).priority_breakdown.staleness
      = round1 ((calculate_staleness parse now t : ℤ) : ℚ) := rfl
  rw [hb, round1_intCast] at h70
  have h70i : (70 : ℤ) < calculate_staleness parse now t := by exact_mod_cast h70
  obtain ⟨s, ts, h1, h2, h3, h4⟩ := calculate_staleness_gt_70 parse now t h70i
  refine ⟨⌊(now - ts) / 24⌋, ?_, h4⟩
  show staleDaysAnnotation parse now (scoreTask parse now tasks t).task = _
  have htask : (scoreTask parse now tasks t).task = t := rfl
  unfold staleDaysAnnotation
  simp [htask, h1, h2, h3]

theorem claim_C9_witness :
    (get_stale_tasks parseOld 0 (scoreTasks parseOld 0 [taskC9])).length = 1 ∧
    ∀ p ∈ get_stale_tasks parseOld 0 (scoreTasks parseOld 0 [taskC9]),
      ∃ d : ℤ, p.2 = some d ∧ 7 < d := by
  refine ⟨?_, claim_C9 parseOld 0 [taskC9]⟩
  have hstale : calculate_staleness parseOld 0 taskC9 = 85 := by
    unfold calculate_staleness
    rw [if_neg (by decide)]
    have h1 : taskC9.dateLastActivity = some "old" := rfl
    have h2 : parseOld "old" = some (-240) := rfl
    simp only [h1, h2]
    rw [if_neg (by decide)]
    norm_num
  have hbdeq : (scoreTask parseOld 0 [taskC9] taskC9).priority_breakdown.staleness
      = round1 ((calculate_staleness parseOld 0 taskC9 : ℤ) : ℚ) := rfl
  have hbd : (scoreTask parseOld 0 [taskC9] taskC9).priority_breakdown.staleness = 85 := by
    rw [hbdeq, hstale, round1_intCast]
    norm_num
  have hc : stalenessStatuses.contains (scoreTask parseOld 0 [taskC9] taskC9).task.status = true := by
    decide
  have hpred : (decide (70 < (scoreTask parseOld 0 [taskC9] taskC9).priority_breakdown.staleness)
      && stalenessStatuses.contains (scoreTask parseOld 0 [taskC9] taskC9).task.status) = true := by
    rw [hbd, hc]
    decide
  have hsts : scoreTasks parseOld 0 [taskC9] = [scoreTask parseOld 0 [taskC9] taskC9] := rfl
  unfold get_stale_tasks sortDescBy
  rw [List.length_mergeSort, List.length_map, hsts]
  simp only [List.filter_cons]
  rw [hpred]
  rfl

/-! ## Claim C8 -/

/-- Updating one assignee key raises the task-count total by exactly 1. -/
theorem sumTaskCounts_addAssignee (w : List (String × WorkloadEntry)) (a : String)
    (st : ScoredTask) : sumTaskCounts (addAssignee w a st) = sumTaskCounts w + 1 := by
  induction w with
  | nil => simp [addAssignee, sumTaskCounts, addTaskToEntry]
  | cons he tl ih =>
    obtain ⟨k, e⟩ := he
    unfold addAssignee
    split_ifs with hk
    · simp [sumTaskCounts, addTaskToEntry]
      omega
    · simp only [sumTaskCounts, List.map_cons, List.sum_cons] at ih ⊢
      omega

/-- A task with k assignees raises the task-count total by k. -/
theorem sumTaskCounts_foldl (as : List String) (st : ScoredTask)
    (w : List (String × WorkloadEntry)) :
    sumTaskCounts (as.foldl (fun w a => addAssignee w a st) w) =
      sumTaskCounts w + as.length := by
  induction as generalizing w with
  | nil => simp
  | cons a as ih =>
    rw [List.foldl_cons, ih, sumTaskCounts_addAssignee, List.length_cons]
    omega

/-- An update adds no key other than the updated assignee. -/
theorem mem_keys_addAssignee (w : List (String × WorkloadEntry)) (a : String)
    (st : ScoredTask) (k : String)
    (hk : k ∈ (addAssignee w a st).map Prod.fst) :
    k ∈ w.map Prod.fst ∨ k = a := by
  induction w with
  | nil =>
    simp [addAssignee] at hk
    exact Or.inr hk
  | cons he tl ih =>
    obtain ⟨k', e⟩ := he
    unfold addAssignee at hk
    split_ifs at hk with hke
    · simp only [List.map_cons, List.mem_cons] at hk ⊢
      exact Or.inl hk
    · simp only [List.map_cons, List.mem_cons] at hk ⊢
      rcases hk with h | h
      · exact Or.inl (Or.inl h)
      · rcases ih h with h2 | h2
        · exact Or.inl (Or.inr h2)
        · exact Or.inr h2

/-- Folding a task's assignees adds only that task's assignees as keys. -/
theorem mem_keys_foldl (as : List String) (st : ScoredTask)
    (w : List (String × WorkloadEntry)) (k : String)
    (hk : k ∈ (as.foldl (fun w a => addAssignee w a st) w).map Prod.fst) :
    k ∈ w.map Prod.fst ∨ k ∈ as := by
  induction as generalizing w with
  | nil => exact Or.inl hk
  | cons a as ih =>
    rw [List.foldl_cons] at hk
    rcases ih (addAssignee w a st) hk with h | h
    · rcases mem_keys_addAssignee w a st k h with h2 | h2
      · exact Or.inl h2
      · exact Or.inr (by simp [h2])
    · exact Or.inr (List.mem_cons_of_mem a h)

/-- The running invariant of the `get_team_workload` loop, over any
starting accumulator: the unassigned list extends by exactly the non-Done
zero-assignee tasks, the task-count total grows by the number of
(assignee, task) slots of non-Done tasks, and every key stems from a
non-Done task's assignee. -/
theorem team_workload_fold (sts : List ScoredTask)
    (acc : List (String × WorkloadEntry) × List ScoredTask) :
    (sts.foldl processWorkloadTask acc).2 =
      acc.2 ++ sts.filter
        (fun st => !(doneStatuses.contains st.task.status) && st.task.assignee.isEmpty) ∧
    sumTaskCounts (sts.foldl processWorkloadTask acc).1 =
      sumTaskCounts acc.1 +
        ((sts.filter (fun st => !(doneStatuses.contains st.task.status))).map
          (fun st => st.task.assignee.length)).sum ∧
    ∀ k ∈ (sts.foldl processWorkloadTask acc).1.map Prod.fst,
      k ∈ acc.1.map Prod.fst ∨
        ∃ st ∈ sts, doneStatuses.contains st.task.status = false ∧
          k ∈ st.task.assignee := by
  induction sts generalizing acc with
  | nil => simp
  | cons st rest ih =>
    rw [List.foldl_cons]
    obtain ⟨ih1, ih2, ih3⟩ := ih (processWorkloadTask acc st)
    by_cases hdone : doneStatuses.contains st.task.status = true
    · have hdonem : st.task.status ∈ doneStatuses := by simpa using hdone
      have hp : processWorkloadTask acc st = acc := by
        unfold processWorkloadTask
        rw [if_pos hdone]
      rw [hp] at ih1 ih2 ih3 ⊢
      refine ⟨?_, ?_, ?_⟩
      · rw [ih1, List.filter_cons_of_neg (by simp [hdonem])]
      · rw [ih2, List.filter_cons_of_neg (by simp [hdonem])]
      · intro k hk
        rcases ih3 k hk with h | ⟨st2, hst2, hh1, hh2⟩
        · exact Or.inl h
        · exact Or.inr ⟨st2, List.mem_cons_of_mem st hst2, hh1, hh2⟩
    · have hdonem : st.task.status ∉ doneStatuses := by simpa using hdone
      by_cases hempty : st.task.assignee.isEmpty = true
      · have hemptym : st.task.assignee = [] := by simpa using hempty
        have hp : processWorkloadTask acc st = (acc.1, acc.2 ++ [st]) := by
          unfold processWorkloadTask
          rw [if_neg hdone, if_pos hempty]
        rw [hp] at ih1 ih2 ih3 ⊢
        dsimp only at ih1 ih2 ih3
        refine ⟨?_, ?_, ?_⟩
        · rw [ih1, List.filter_cons_of_pos (by simp [hdonem, hemptym]),
            List.append_assoc, List.singleton_append]
        · rw [ih2, List.filter_cons_of_pos (by simp [hdonem])]
          have hlen : st.task.assignee.length = 0 := by
            simpa [List.isEmpty_iff_length_eq_zero] using hempty
          simp [hlen]
        · intro k hk
          rcases ih3 k hk with h | ⟨st2, hst2, hh1, hh2⟩
          · exact Or.inl h
          · exact Or.inr ⟨st2, List.mem_cons_of_mem st hst2, hh1, hh2⟩
      · have hemptym : ¬st.task.assignee = [] := by simpa using hempty
        have hp : processWorkloadTask acc st =
            (st.task.assignee.foldl (fun w a => addAssignee w a st) acc.1, acc.2) := by
          unfold processWorkloadTask
          rw [if_neg hdone, if_neg hempty]
        rw [hp] at ih1 ih2 ih3 ⊢
        dsimp only at ih1 ih2 ih3
        refine ⟨?_, ?_, ?_⟩
        · rw [ih1, List.filter_cons_of_neg (by simp [hdonem, hemptym])]
        · rw [ih2, sumTaskCounts_foldl, List.filter_cons_of_pos (by simp [hdonem]),
            List.map_cons, List.sum_cons]
          omega
        · intro k hk
          rcases ih3 k hk with h | ⟨st2, hst2, hh1, hh2⟩
          · rcases mem_keys_foldl st.task.assignee st acc.1 k h with h2 | h2
            · exact Or.inl h2
            · exact Or.inr ⟨st, List.mem_cons_self st rest,
                by simpa using hdone, h2⟩
          · exact Or.inr ⟨st2, List.mem_cons_of_mem st hst2, hh1, hh2⟩

/-- Claim C8, confirmed.  The team-workload view drops Done/Completed
tasks; zero-assignee tasks land only in the unassigned list and contribute
no per-assignee key; and the per-assignee task-count total plus the
unassigned count equals the number of (assignee, task) slots over non-Done
tasks plus the number of unassigned non-Done tasks — a task with k
assignees is counted once per assignee. -/
theorem claim_C8 (sts : List ScoredTask) :
    (get_team_workload sts).2 =
      sts.filter (fun st => !(doneStatuses.contains st.task.status) && st.task.assignee.isEmpty) ∧
    (∀ k ∈ (get_team_workload sts).1.map Prod.fst,
      ∃ st ∈ sts, doneStatuses.contains st.task.status = false ∧ k ∈ st.task.assignee) ∧
    sumTaskCounts (get_team_workload sts).1 + (get_team_workload sts).2.length =
      ((sts.filter (fun st => !(doneStatuses.contains st.task.status))).map
        (fun st => st.task.assignee.length)).sum +
      (sts.filter (fun st => !(doneStatuses.contains st.task.status)
        && st.task.assignee.isEmpty)).length := by
  obtain ⟨h1, h2, h3⟩ := team_workload_fold sts ([], [])
  unfold get_team_workload
  simp only [List.nil_append] at h1
  have h0 : sumTaskCounts ([] : List (String × WorkloadEntry)) = 0 := rfl
  rw [h0, Nat.zero_add] at h2
  refine ⟨h1, ?_, ?_⟩
  · intro k hk
    rcases h3 k hk with h | h
    · simp at h
    · exact h
  · rw [h1, h2]

end App
